import Mathlib

/-!
Shallow embedding of `src/analysis.py` (marketing-campaign analysis script).

Conventions of the embedding:
* A pandas cell that holds NaN (a missing value) is modelled as `none`;
  a defined float value is modelled as `some q` with `q : ℚ` (the script's
  arithmetic is modelled exactly, over the rationals).
* A raw CSV cell, before `pd.to_numeric(..., errors=..)` coercion, is either a
  textual cell (`CellVal.vStr`) or an already numeric cell (`CellVal.vNum`);
  `pd.read_csv` turns an empty cell into NaN, i.e. `vNum none`.
* `Series.mean()` skips missing values and is NaN on an empty/all-missing
  column; `Series.sum()` skips missing values and is 0.0 (a defined value) on
  an empty/all-missing column.
* `df.groupby(k)` drops rows whose key is missing, and lists the distinct keys
  in ascending order (modelled with `List.insertionSort` on `String`).
* `DataFrame.corr()` (pandas `nancorr`, pearson, `min_periods = 1`): for each
  pair of columns it keeps the rows where both cells are present; with zero
  such rows, or when the product of the two sums of squared deviations is
  zero, the entry is NaN; otherwise it is `cov / sqrt(varx * vary)`.  The
  square root is irrational, so an entry is represented exactly by the pair
  `(cov, varx * vary)`; the real number it denotes is recovered by
  `corrValue`.
* `main`'s observable behaviour (console prints, image files written, the
  final busy-wait) is modelled as a trace of `Event`s; the filesystem is a
  function from paths to optionally-available file contents, and
  `pd.read_csv` raising `FileNotFoundError` corresponds to the path mapping
  to `none`.
-/

namespace Marketing

/-- A raw cell of one of the six numeric CSV columns before coercion:
either a textual cell, or an already-numeric cell (`vNum none` is NaN,
which is what `pd.read_csv` produces for an empty cell). -/
inductive CellVal where
  | vStr (s : String)
  | vNum (q : Option ℚ)
  deriving DecidableEq

/-- Numerical value of a list of decimal digit characters. -/
def digitsVal (cs : List Char) : ℕ :=
  cs.foldl (fun a c => a * 10 + (c.toNat - 48)) 0

/-- Parse an unsigned decimal literal (`"12"`, `"12.5"`, `"12."`, `".5"`),
the shape of numeral accepted by `pd.to_numeric`; anything else is
unparseable. -/
def parseUnsigned (cs : List Char) : Option ℚ :=
  match cs.splitOn '.' with
  | [ip] =>
      if ip ≠ [] ∧ ip.all Char.isDigit then some (digitsVal ip) else none
  | [ip, fp] =>
      if (ip ≠ [] ∨ fp ≠ []) ∧ ip.all Char.isDigit ∧ fp.all Char.isDigit then
        some ((digitsVal ip : ℚ) + (digitsVal fp : ℚ) / (10 : ℚ) ^ fp.length)
      else none
  | _ => none

/-- Strip leading and trailing whitespace (the stripping `pd.to_numeric`
applies before parsing). -/
def trimChars (cs : List Char) : List Char :=
  ((cs.dropWhile Char.isWhitespace).reverse.dropWhile Char.isWhitespace).reverse

/-- Model of `pd.to_numeric(cell, errors = coerce)` on a textual cell:
optional sign, then a decimal literal; an unparseable string yields the
missing marker `none` instead of raising. -/
def parseRat (s : String) : Option ℚ :=
  match trimChars s.data with
  | '-' :: rest => (parseUnsigned rest).map (fun q => -q)
  | '+' :: rest => parseUnsigned rest
  | cs => parseUnsigned cs

/-- Coercion `pd.to_numeric(cell, errors = coerce)` of a single cell: textual cells are
parsed (unparseable text becomes NaN), numeric cells pass through unchanged. -/
def toNumeric : CellVal → Option ℚ
  | .vStr s => parseRat s
  | .vNum q => q

/-- One application of the per-cell coercion, viewed as `CellVal → CellVal`
(the result of `pd.to_numeric` is always a numeric cell). -/
def coerceCell (c : CellVal) : CellVal := .vNum (toNumeric c)

/-- One row of the CSV as read by `pd.read_csv`: the three categorical
columns (a missing categorical cell is `none`) and the six numeric columns
still in raw form. -/
structure RawRow where
  platform : Option String
  campaignType : Option String
  targetAudience : Option String
  campaignBudget : CellVal
  adClickRate : CellVal
  conversionRate : CellVal
  socialMediaFollowers : CellVal
  emailOpenRate : CellVal
  customerRetentionRate : CellVal
  deriving DecidableEq

/-- One row of the prepared DataFrame: the six numeric columns have been
coerced, `none` marking a missing value. -/
structure Row where
  platform : Option String
  campaignType : Option String
  targetAudience : Option String
  campaignBudget : Option ℚ
  adClickRate : Option ℚ
  conversionRate : Option ℚ
  socialMediaFollowers : Option ℚ
  emailOpenRate : Option ℚ
  customerRetentionRate : Option ℚ
  deriving DecidableEq

/-- Function `load_and_prepare_data`: coerce each of the six numeric columns with
`pd.to_numeric(..., errors = coerce)`. -/
def load_and_prepare_data (raw : List RawRow) : List Row :=
  raw.map (fun r =>
    { platform := r.platform
      campaignType := r.campaignType
      targetAudience := r.targetAudience
      campaignBudget := toNumeric r.campaignBudget
      adClickRate := toNumeric r.adClickRate
      conversionRate := toNumeric r.conversionRate
      socialMediaFollowers := toNumeric r.socialMediaFollowers
      emailOpenRate := toNumeric r.emailOpenRate
      customerRetentionRate := toNumeric r.customerRetentionRate })

/-- Model of `Series.mean()`: skip missing values; NaN (`none`) when no value
remains. -/
def pmean (xs : List (Option ℚ)) : Option ℚ :=
  match xs.reduceOption with
  | [] => none
  | v => some (v.sum / v.length)

/-- Model of `Series.sum()`: skip missing values; the sum of an empty/all-missing
column is the defined value `0.0`, never NaN. -/
def psum (xs : List (Option ℚ)) : Option ℚ :=
  some xs.reduceOption.sum

/-- The `overall_performance` record of the analysis dictionary. -/
structure OverallPerformance where
  total_budget : Option ℚ
  average_budget : Option ℚ
  average_click_rate : Option ℚ
  average_conversion_rate : Option ℚ
  average_retention_rate : Option ℚ
  deriving DecidableEq

/-- One row of the `platform_performance` / `campaign_type_performance`
grouped tables: the group key and the aggregates of the `.agg` dictionary. -/
structure GroupRow where
  key : String
  budget_mean : Option ℚ
  budget_sum : Option ℚ
  click_mean : Option ℚ
  conv_mean : Option ℚ
  retention_mean : Option ℚ
  deriving DecidableEq

/-- One row of the `audience_performance` grouped table (one extra aggregate:
mean of `Social_Media_Followers`). -/
structure AudienceRow where
  key : String
  budget_mean : Option ℚ
  budget_sum : Option ℚ
  click_mean : Option ℚ
  conv_mean : Option ℚ
  retention_mean : Option ℚ
  followers_mean : Option ℚ
  deriving DecidableEq

/-- Ascending sort of the distinct group keys, as `groupby(..., sort = True)`
produces them. -/
def sortStr (l : List String) : List String :=
  List.insertionSort (· ≤ ·) l

/-- The rows of one group: the rows whose (non-missing) key equals `k`. -/
def groupRows (df : List Row) (keyf : Row → Option String) (k : String) :
    List Row :=
  df.filter (fun r => keyf r == some k)

/-- The distinct non-missing keys of the grouping column, ascending
(`groupby` drops missing keys and sorts the distinct values). -/
def groupKeys (df : List Row) (keyf : Row → Option String) : List String :=
  sortStr ((df.filterMap keyf).dedup)

/-- One aggregated row of the platform / campaign-type grouped tables. -/
def aggRow (df : List Row) (keyf : Row → Option String) (k : String) :
    GroupRow :=
  let g := groupRows df keyf k
  { key := k
    budget_mean := pmean (g.map Row.campaignBudget)
    budget_sum := psum (g.map Row.campaignBudget)
    click_mean := pmean (g.map Row.adClickRate)
    conv_mean := pmean (g.map Row.conversionRate)
    retention_mean := pmean (g.map Row.customerRetentionRate) }

/-- One aggregated row of the audience grouped table. -/
def audAggRow (df : List Row) (keyf : Row → Option String) (k : String) :
    AudienceRow :=
  let g := groupRows df keyf k
  { key := k
    budget_mean := pmean (g.map Row.campaignBudget)
    budget_sum := psum (g.map Row.campaignBudget)
    click_mean := pmean (g.map Row.adClickRate)
    conv_mean := pmean (g.map Row.conversionRate)
    retention_mean := pmean (g.map Row.customerRetentionRate)
    followers_mean := pmean (g.map Row.socialMediaFollowers) }

/-- Model of `df.groupby(keyf).agg({budget: [mean, sum], click: mean, conv: mean,
retention: mean}).reset_index()`. -/
def groupTable (df : List Row) (keyf : Row → Option String) : List GroupRow :=
  (groupKeys df keyf).map (aggRow df keyf)

/-- The audience variant, with the extra followers mean. -/
def audTable (df : List Row) (keyf : Row → Option String) : List AudienceRow :=
  (groupKeys df keyf).map (audAggRow df keyf)

/-- Mean of a plain list of rationals. -/
def qmean (l : List ℚ) : ℚ := l.sum / l.length

/-- Sum of squared deviations from the mean. -/
def ssd (l : List ℚ) : ℚ :=
  (l.map (fun x => (x - qmean l) * (x - qmean l))).sum

/-- Sum of products of deviations from the two means. -/
def scov (ps : List (ℚ × ℚ)) : ℚ :=
  (ps.map (fun p =>
    (p.1 - qmean (ps.map Prod.fst)) * (p.2 - qmean (ps.map Prod.snd)))).sum

/-- Keep a pair of cells only when both are present (the
`vx == vx and vy == vy` test of pandas `nancorr`). -/
def pairSel : Option ℚ × Option ℚ → Option (ℚ × ℚ)
  | (some a, some b) => some (a, b)
  | _ => none

/-- The rows where both columns have a present value (pandas `nancorr` keeps
exactly the indices where neither cell is NaN). -/
def corrPairs (xs ys : List (Option ℚ)) : List (ℚ × ℚ) :=
  (xs.zip ys).filterMap pairSel

/-- One entry of `df[...].corr()`, pandas `nancorr` in exact arithmetic:
`none` is NaN (no common observation, i.e. fewer than `min_periods = 1`
rows where both cells are present, or a zero divisor); a present entry
`(c, vp)` denotes the real number `c / sqrt vp` (see `corrValue`), with
`vp` the product of the two sums of squared deviations. -/
def corrEntry (xs ys : List (Option ℚ)) : Option (ℚ × ℚ) :=
  if (corrPairs xs ys).length = 0 then none
  else if ssd ((corrPairs xs ys).map Prod.fst) *
      ssd ((corrPairs xs ys).map Prod.snd) = 0 then none
  else some (scov (corrPairs xs ys),
    ssd ((corrPairs xs ys).map Prod.fst) *
      ssd ((corrPairs xs ys).map Prod.snd))

/-- The real value denoted by a correlation entry (`none` stays NaN). -/
noncomputable def corrValue : Option (ℚ × ℚ) → Option ℝ
  | none => none
  | some (c, vp) => some ((c : ℝ) / Real.sqrt (vp : ℝ))

/-- The six numeric columns, in the order they are listed in the
`df[[...]].corr()` call. -/
def colFun : Fin 6 → Row → Option ℚ
  | ⟨0, _⟩ => Row.campaignBudget
  | ⟨1, _⟩ => Row.adClickRate
  | ⟨2, _⟩ => Row.conversionRate
  | ⟨3, _⟩ => Row.socialMediaFollowers
  | ⟨4, _⟩ => Row.emailOpenRate
  | ⟨5, _⟩ => Row.customerRetentionRate

/-- The full analysis dictionary returned by
`generate_comprehensive_analysis`. -/
structure Analysis where
  overall_performance : OverallPerformance
  platform_performance : List GroupRow
  campaign_type_performance : List GroupRow
  audience_performance : List AudienceRow
  correlation_matrix : Fin 6 → Fin 6 → Option (ℚ × ℚ)

/-- Function `generate_comprehensive_analysis`. -/
def generate_comprehensive_analysis (df : List Row) : Analysis :=
  { overall_performance :=
      { total_budget := psum (df.map Row.campaignBudget)
        average_budget := pmean (df.map Row.campaignBudget)
        average_click_rate := pmean (df.map Row.adClickRate)
        average_conversion_rate := pmean (df.map Row.conversionRate)
        average_retention_rate := pmean (df.map Row.customerRetentionRate) }
    platform_performance := groupTable df Row.platform
    campaign_type_performance := groupTable df Row.campaignType
    audience_performance := audTable df Row.targetAudience
    correlation_matrix := fun i j =>
      corrEntry (df.map (colFun i)) (df.map (colFun j)) }

/-- Observable actions of a run of the script: console prints, image files
written, the prompt for a key press in the error branches and the final
busy-wait loop of the success branch. -/
inductive Event where
  | printLine (s : String)
  | printMetric (label : String) (value : Option ℚ)
  | printGroupTable (t : List GroupRow)
  | printAudienceTable (t : List AudienceRow)
  | writeFile (name : String)
  | promptKey
  | spinForever
  deriving DecidableEq

/-- A single-quote character (codepoint 39). -/
def quoteChar : Char := Char.ofNat 39

/-- The `FileNotFoundError` branch message of `main`, naming the path. -/
def fileNotFoundMsg (filepath : String) : String :=
  "Error: File " ++ String.singleton quoteChar ++ filepath ++
    String.singleton quoteChar ++
    " not found. Please ensure the file is in the correct directory."

/-- Function `main(filepath)` as an event trace.  The filesystem is a map from paths
to optionally-available CSV contents; `fs filepath = none` is the
`FileNotFoundError` case of `pd.read_csv`. -/
def main (fs : String → Option (List RawRow)) (filepath : String) :
    List Event :=
  [Event.printLine "Marketing Campaign Data Analysis",
   Event.printLine "================================"] ++
  match fs filepath with
  | none =>
      [Event.printLine (fileNotFoundMsg filepath),
       Event.printLine "\nPress any key to exit...",
       Event.promptKey]
  | some raw =>
      let df := load_and_prepare_data raw
      let analysis := generate_comprehensive_analysis df
      [Event.printLine "\nOverall Campaign Performance:",
       Event.printMetric "Total Budget" analysis.overall_performance.total_budget,
       Event.printMetric "Average Budget" analysis.overall_performance.average_budget,
       Event.printMetric "Average Click Rate" analysis.overall_performance.average_click_rate,
       Event.printMetric "Average Conversion Rate" analysis.overall_performance.average_conversion_rate,
       Event.printMetric "Average Retention Rate" analysis.overall_performance.average_retention_rate,
       Event.printLine "\n--- Platform Performance ---",
       Event.printGroupTable analysis.platform_performance,
       Event.printLine "\n--- Campaign Type Performance ---",
       Event.printGroupTable analysis.campaign_type_performance,
       Event.printLine "\n--- Target Audience Performance ---",
       Event.printAudienceTable analysis.audience_performance,
       Event.writeFile "budget_distribution.png",
       Event.writeFile "correlation_heatmap.png",
       Event.writeFile "conversion_rate_by_platform.png",
       Event.printLine "\nVisualizations have been saved in the current directory.",
       Event.printLine "\nPress Ctrl+C to exit the program...",
       Event.spinForever]

/-! ### Properties of the grouping keys -/

theorem aggRow_key (df : List Row) (keyf : Row → Option String) (k : String) :
    (aggRow df keyf k).key = k := rfl

theorem audAggRow_key (df : List Row) (keyf : Row → Option String) (k : String) :
    (audAggRow df keyf k).key = k := rfl

theorem sortStr_perm (l : List String) : List.Perm (sortStr l) l :=
  List.perm_insertionSort _ l

theorem groupKeys_nodup (df : List Row) (keyf : Row → Option String) :
    (groupKeys df keyf).Nodup :=
  ((sortStr_perm _).nodup_iff).mpr (List.nodup_dedup _)

theorem mem_groupKeys {df : List Row} {keyf : Row → Option String}
    {v : String} :
    v ∈ groupKeys df keyf ↔ ∃ r ∈ df, keyf r = some v := by
  unfold groupKeys
  rw [(sortStr_perm _).mem_iff, List.mem_dedup, List.mem_filterMap]

theorem groupKeys_sorted (df : List Row) (keyf : Row → Option String) :
    (groupKeys df keyf).Sorted (· < ·) :=
  (List.sorted_insertionSort _ _).lt_of_le (groupKeys_nodup df keyf)

theorem groupTable_map_key (df : List Row) (keyf : Row → Option String) :
    (groupTable df keyf).map GroupRow.key = groupKeys df keyf := by
  unfold groupTable
  rw [List.map_map]
  exact (List.map_congr_left fun k _ => rfl).trans (List.map_id _)

theorem audTable_map_key (df : List Row) (keyf : Row → Option String) :
    (audTable df keyf).map AudienceRow.key = groupKeys df keyf := by
  unfold audTable
  rw [List.map_map]
  exact (List.map_congr_left fun k _ => rfl).trans (List.map_id _)

theorem countP_beq_of_nodup {ks : List String} (h : ks.Nodup) (v : String) :
    ks.countP (fun k => k == v) = if v ∈ ks then 1 else 0 := by
  induction ks with
  | nil => simp
  | cons k ks ih =>
    rcases List.nodup_cons.mp h with ⟨hk, hnd⟩
    rw [List.countP_cons]
    by_cases hv : k = v
    · subst hv
      have h0 : ks.countP (fun x => x == k) = 0 :=
        List.countP_eq_zero.mpr fun a ha => by
          simp only [beq_iff_eq]
          exact fun h => hk (h ▸ ha)
      simp [h0]
    · have hvk : ¬v = k := fun h => hv h.symm
      simp [List.mem_cons, hv, ih hnd, hvk]

theorem groupTable_countP (df : List Row) (keyf : Row → Option String)
    (v : String) :
    (groupTable df keyf).countP (fun r => r.key == v) =
      if ∃ r ∈ df, keyf r = some v then 1 else 0 := by
  unfold groupTable
  rw [List.countP_map]
  have hcomp : ((fun r : GroupRow => r.key == v) ∘ aggRow df keyf) =
      fun k => k == v := rfl
  rw [hcomp, countP_beq_of_nodup (groupKeys_nodup df keyf) v]
  exact if_congr mem_groupKeys rfl rfl

theorem audTable_countP (df : List Row) (keyf : Row → Option String)
    (v : String) :
    (audTable df keyf).countP (fun r => r.key == v) =
      if ∃ r ∈ df, keyf r = some v then 1 else 0 := by
  unfold audTable
  rw [List.countP_map]
  have hcomp : ((fun r : AudienceRow => r.key == v) ∘ audAggRow df keyf) =
      fun k => k == v := rfl
  rw [hcomp, countP_beq_of_nodup (groupKeys_nodup df keyf) v]
  exact if_congr mem_groupKeys rfl rfl

/-- C1: each of the three grouped-summary tables has exactly one row per
distinct non-missing value of its grouping column (Platform, Campaign_Type,
Target_Audience), and no row appears for a category value with zero
qualifying rows: the number of rows carrying key `v` is `1` when some row of
the input has that (non-missing) grouping value and `0` otherwise. -/
theorem claim1_one_row_per_distinct_value (df : List Row) (v : String) :
    ((generate_comprehensive_analysis df).platform_performance.countP
        (fun r => r.key == v) =
      if ∃ r ∈ df, r.platform = some v then 1 else 0) ∧
    ((generate_comprehensive_analysis df).campaign_type_performance.countP
        (fun r => r.key == v) =
      if ∃ r ∈ df, r.campaignType = some v then 1 else 0) ∧
    ((generate_comprehensive_analysis df).audience_performance.countP
        (fun r => r.key == v) =
      if ∃ r ∈ df, r.targetAudience = some v then 1 else 0) :=
  ⟨groupTable_countP df Row.platform v,
   groupTable_countP df Row.campaignType v,
   audTable_countP df Row.targetAudience v⟩

/-- C6: the rows of each grouped-summary table appear in ascending sorted
order of the distinct values of the grouping column (strictly increasing
keys). -/
theorem claim6_rows_sorted_ascending (df : List Row) :
    ((generate_comprehensive_analysis df).platform_performance.map
        GroupRow.key).Sorted (· < ·) ∧
    ((generate_comprehensive_analysis df).campaign_type_performance.map
        GroupRow.key).Sorted (· < ·) ∧
    ((generate_comprehensive_analysis df).audience_performance.map
        AudienceRow.key).Sorted (· < ·) := by
  refine ⟨?_, ?_, ?_⟩
  · rw [show (generate_comprehensive_analysis df).platform_performance =
        groupTable df Row.platform from rfl, groupTable_map_key]
    exact groupKeys_sorted df Row.platform
  · rw [show (generate_comprehensive_analysis df).campaign_type_performance =
        groupTable df Row.campaignType from rfl, groupTable_map_key]
    exact groupKeys_sorted df Row.campaignType
  · rw [show (generate_comprehensive_analysis df).audience_performance =
        audTable df Row.targetAudience from rfl, audTable_map_key]
    exact groupKeys_sorted df Row.targetAudience

/-! ### The correlation matrix: symmetry and the diagonal -/

theorem pairSel_swap (p : Option ℚ × Option ℚ) :
    pairSel p.swap = (pairSel p).map Prod.swap := by
  rcases p with ⟨_ | a, _ | b⟩ <;> rfl

theorem corrPairs_swap (xs ys : List (Option ℚ)) :
    corrPairs ys xs = (corrPairs xs ys).map Prod.swap := by
  unfold corrPairs
  rw [← List.zip_swap xs ys, List.filterMap_map, List.map_filterMap]
  exact congrArg (fun f => List.filterMap f (xs.zip ys)) (funext pairSel_swap)

theorem map_swap_fst (ps : List (ℚ × ℚ)) :
    (ps.map Prod.swap).map Prod.fst = ps.map Prod.snd := by
  rw [List.map_map]; rfl

theorem map_swap_snd (ps : List (ℚ × ℚ)) :
    (ps.map Prod.swap).map Prod.snd = ps.map Prod.fst := by
  rw [List.map_map]; rfl

theorem scov_swap (ps : List (ℚ × ℚ)) : scov (ps.map Prod.swap) = scov ps := by
  unfold scov
  rw [map_swap_fst, map_swap_snd, List.map_map]
  refine congrArg List.sum (List.map_congr_left fun p _ => ?_)
  exact mul_comm _ _

theorem corrEntry_symm (xs ys : List (Option ℚ)) :
    corrEntry xs ys = corrEntry ys xs := by
  unfold corrEntry
  rw [corrPairs_swap xs ys, map_swap_fst, map_swap_snd, scov_swap,
    List.length_map,
    mul_comm (ssd ((corrPairs xs ys).map Prod.snd))
      (ssd ((corrPairs xs ys).map Prod.fst))]

theorem corrPairs_self (xs : List (Option ℚ)) :
    corrPairs xs xs = xs.reduceOption.map (fun a => (a, a)) := by
  induction xs with
  | nil => rfl
  | cons o t ih =>
    cases o with
    | none =>
        simpa [corrPairs, pairSel, List.reduceOption, List.filterMap_cons]
          using ih
    | some a =>
        simpa [corrPairs, pairSel, List.reduceOption, List.filterMap_cons]
          using ih

theorem diagMap_fst (vals : List ℚ) :
    (vals.map (fun a => (a, a))).map Prod.fst = vals := by
  rw [List.map_map]
  exact (List.map_congr_left fun a _ => rfl).trans (List.map_id _)

theorem diagMap_snd (vals : List ℚ) :
    (vals.map (fun a => (a, a))).map Prod.snd = vals := by
  rw [List.map_map]
  exact (List.map_congr_left fun a _ => rfl).trans (List.map_id _)

theorem scov_diag (vals : List ℚ) :
    scov (vals.map (fun a => (a, a))) = ssd vals := by
  unfold scov ssd
  rw [diagMap_fst, diagMap_snd, List.map_map]
  rfl

theorem ssd_pos {l : List ℚ} {a b : ℚ} (ha : a ∈ l) (hb : b ∈ l)
    (hab : a ≠ b) : 0 < ssd l := by
  have key : ∀ c ∈ l, c ≠ qmean l → 0 < ssd l := by
    intro c hc hcm
    have hmem : (c - qmean l) * (c - qmean l) ∈
        l.map (fun x => (x - qmean l) * (x - qmean l)) :=
      List.mem_map_of_mem _ hc
    have hnn : ∀ x ∈ l.map (fun x => (x - qmean l) * (x - qmean l)), 0 ≤ x := by
      intro x hx
      rcases List.mem_map.mp hx with ⟨y, _, rfl⟩
      exact mul_self_nonneg _
    have hle := List.single_le_sum hnn _ hmem
    have hpos : 0 < (c - qmean l) * (c - qmean l) :=
      mul_self_pos.mpr (sub_ne_zero.mpr hcm)
    exact lt_of_lt_of_le hpos hle
  by_cases hA : a = qmean l
  · exact key b hb (fun h => hab (hA.trans h.symm))
  · exact key a ha hA

theorem corrValue_some (c vp : ℚ) :
    corrValue (some (c, vp)) = some ((c : ℝ) / Real.sqrt (vp : ℝ)) := rfl

theorem corrEntry_diag {xs : List (Option ℚ)} {a b : ℚ}
    (ha : a ∈ xs.reduceOption) (hb : b ∈ xs.reduceOption) (hab : a ≠ b) :
    corrValue (corrEntry xs xs) = some 1 := by
  have hpos : 0 < ssd xs.reduceOption := ssd_pos ha hb hab
  have hlen : xs.reduceOption.length ≠ 0 :=
    (List.length_pos.mpr (List.ne_nil_of_mem ha)).ne'
  have hdiv : ssd xs.reduceOption * ssd xs.reduceOption ≠ 0 :=
    (mul_pos hpos hpos).ne'
  unfold corrEntry
  rw [corrPairs_self, diagMap_fst, diagMap_snd, scov_diag, List.length_map]
  rw [if_neg hlen, if_neg hdiv, corrValue_some]
  have hcast : ((ssd xs.reduceOption * ssd xs.reduceOption : ℚ) : ℝ) =
      (ssd xs.reduceOption : ℝ) * (ssd xs.reduceOption : ℝ) := by push_cast; ring
  rw [hcast, Real.sqrt_mul_self (by exact_mod_cast hpos.le)]
  rw [div_self (by exact_mod_cast hpos.ne')]

/-- C2 (amended): for every input table the correlation matrix is symmetric,
`M[i][j] = M[j][i]` for all metric pairs, and `M[i][i] = 1.0` for every
column `i` that has at least two distinct non-missing values (pandas yields
NaN, not 1.0, on the diagonal of a constant column — see
`claim2_counterexample`). -/
theorem claim2_corr_symmetric_unit_diagonal :
    (∀ (df : List Row) (i j : Fin 6),
      (generate_comprehensive_analysis df).correlation_matrix i j =
        (generate_comprehensive_analysis df).correlation_matrix j i) ∧
    (∀ (df : List Row) (i : Fin 6),
      (∃ a ∈ (df.map (colFun i)).reduceOption,
        ∃ b ∈ (df.map (colFun i)).reduceOption, a ≠ b) →
      corrValue ((generate_comprehensive_analysis df).correlation_matrix i i) =
        some 1) := by
  constructor
  · intro df i j
    exact corrEntry_symm (df.map (colFun i)) (df.map (colFun j))
  · rintro df i ⟨a, ha, b, hb, hab⟩
    exact corrEntry_diag ha hb hab

/-! ### Concrete tables used by scenarios, witnesses and counterexamples -/

/-- A row with every cell missing. -/
def emptyRow : Row :=
  { platform := none, campaignType := none, targetAudience := none,
    campaignBudget := none, adClickRate := none, conversionRate := none,
    socialMediaFollowers := none, emailOpenRate := none,
    customerRetentionRate := none }

/-- The spec scenario: two rows, both `Platform = "Facebook"`, with
`Campaign_Budget` 100 and 300. -/
def twoRowTable : List Row :=
  [{ emptyRow with platform := some "Facebook", campaignBudget := some 100 },
   { emptyRow with platform := some "Facebook", campaignBudget := some 300 }]

/-- Two rows whose budget column holds two distinct values 1 and 3. -/
def twoDistinctTable : List Row :=
  [{ emptyRow with campaignBudget := some 1 },
   { emptyRow with campaignBudget := some 3 }]

/-- Two rows whose budget column is constant (both cells 5). -/
def constTable : List Row :=
  [{ emptyRow with campaignBudget := some 5 },
   { emptyRow with campaignBudget := some 5 }]

theorem corrValue_none : corrValue none = none := rfl

/-- C2 witness: on `twoDistinctTable`, column 0 (`Campaign_Budget`) has two
distinct non-missing values and its diagonal correlation entry is exactly
1.0. -/
theorem claim2_witness :
    (∃ a ∈ (twoDistinctTable.map (colFun 0)).reduceOption,
      ∃ b ∈ (twoDistinctTable.map (colFun 0)).reduceOption, a ≠ b) ∧
    corrValue ((generate_comprehensive_analysis
        twoDistinctTable).correlation_matrix 0 0) = some 1 :=
  ⟨by decide,
   claim2_corr_symmetric_unit_diagonal.2 twoDistinctTable 0 (by decide)⟩

/-- C2 counterexample: on `constTable` the budget column has two non-missing
values, yet its diagonal correlation entry is NaN (pandas `nancorr` yields
NaN when the divisor `sqrt(varx * vary)` is zero), not 1.0 as the claim
states. -/
theorem claim2_counterexample :
    2 ≤ ((constTable.map (colFun 0)).reduceOption).length ∧
    corrValue ((generate_comprehensive_analysis
        constTable).correlation_matrix 0 0) ≠ some 1 := by
  refine ⟨by decide, ?_⟩
  have h : (generate_comprehensive_analysis constTable).correlation_matrix 0 0 =
      none := by
    norm_num [generate_comprehensive_analysis, constTable, emptyRow, colFun,
      corrEntry, corrPairs, pairSel, ssd, scov, qmean, List.reduceOption,
      List.filterMap_cons, List.filterMap_nil, Function.comp]
  rw [h, corrValue_none]
  exact fun hc => Option.noConfusion hc

/-- C3 counterexample: on the empty table `total_budget` is the defined
value 0 (pandas `Series.sum()` of an empty column is `0.0`), not an
undefined/NaN result as the claim states. -/
theorem claim3_counterexample :
    (generate_comprehensive_analysis
        ([] : List Row)).overall_performance.total_budget = some 0 ∧
    (generate_comprehensive_analysis
        ([] : List Row)).overall_performance.total_budget ≠ none := by decide

/-- C3 (amended): on the empty table no exception is raised (every analysis
function is total); `total_budget` is the defined value 0, the four mean
metrics are undefined, the three grouped tables are empty, and every entry
of the correlation matrix is undefined. -/
theorem claim3_empty_table :
    (generate_comprehensive_analysis ([] : List Row)).overall_performance =
      { total_budget := some 0, average_budget := none,
        average_click_rate := none, average_conversion_rate := none,
        average_retention_rate := none } ∧
    (generate_comprehensive_analysis ([] : List Row)).platform_performance =
      [] ∧
    (generate_comprehensive_analysis
        ([] : List Row)).campaign_type_performance = [] ∧
    (generate_comprehensive_analysis ([] : List Row)).audience_performance =
      [] ∧
    ∀ i j : Fin 6,
      (generate_comprehensive_analysis ([] : List Row)).correlation_matrix i j
        = none := by
  exact ⟨by decide, by decide, by decide, by decide, by decide⟩

/-- The "Facebook" row produced by the two-row scenario table. -/
def fbRow : GroupRow :=
  { key := "Facebook", budget_mean := some 200, budget_sum := some 400,
    click_mean := none, conv_mean := none, retention_mean := none }

theorem twoRow_platform_eval :
    (generate_comprehensive_analysis twoRowTable).platform_performance =
      [fbRow] := by
  norm_num [generate_comprehensive_analysis, groupTable, groupKeys, sortStr,
    aggRow, groupRows, pmean, psum, List.reduceOption, twoRowTable, emptyRow,
    fbRow, List.insertionSort, List.orderedInsert, List.filterMap_cons,
    List.filterMap_nil]

/-- C5: on the two-row Facebook table with budgets 100 and 300, the overall
`average_budget` is 200.00 and `platform_performance` has exactly one row,
for "Facebook", with mean budget 200 and sum budget 400. -/
theorem claim5_two_row_scenario :
    (generate_comprehensive_analysis
        twoRowTable).overall_performance.average_budget = some 200 ∧
    (generate_comprehensive_analysis twoRowTable).platform_performance =
      [{ key := "Facebook", budget_mean := some 200, budget_sum := some 400,
         click_mean := none, conv_mean := none, retention_mean := none }] := by
  constructor
  · norm_num [generate_comprehensive_analysis, twoRowTable, emptyRow, pmean,
      List.reduceOption, List.filterMap_cons, List.filterMap_nil]
  · exact twoRow_platform_eval

/-! ### Aggregated values versus the range of the underlying data -/

/-- Predicate: `m` lies within `[min, max]` of the list `vals` (vacuous for a missing
aggregate). -/
def inRangeOpt (vals : List ℚ) : Option ℚ → Prop
  | none => True
  | some m => ∃ lo ∈ vals, ∃ hi ∈ vals, lo ≤ m ∧ m ≤ hi

/-- The non-missing values of column `c` within the group of key `k`. -/
def colVals (df : List Row) (keyf : Row → Option String) (k : String)
    (c : Row → Option ℚ) : List ℚ :=
  ((groupRows df keyf k).map c).reduceOption

/-- Every mean aggregate of a grouped row lies within the range of the
underlying non-missing values of its column for that category. -/
def meansInRange (df : List Row) (keyf : Row → Option String)
    (r : GroupRow) : Prop :=
  inRangeOpt (colVals df keyf r.key Row.campaignBudget) r.budget_mean ∧
  inRangeOpt (colVals df keyf r.key Row.adClickRate) r.click_mean ∧
  inRangeOpt (colVals df keyf r.key Row.conversionRate) r.conv_mean ∧
  inRangeOpt (colVals df keyf r.key Row.customerRetentionRate) r.retention_mean

/-- As `meansInRange`, for the audience table (extra followers mean). -/
def audMeansInRange (df : List Row) (keyf : Row → Option String)
    (r : AudienceRow) : Prop :=
  inRangeOpt (colVals df keyf r.key Row.campaignBudget) r.budget_mean ∧
  inRangeOpt (colVals df keyf r.key Row.adClickRate) r.click_mean ∧
  inRangeOpt (colVals df keyf r.key Row.conversionRate) r.conv_mean ∧
  inRangeOpt (colVals df keyf r.key Row.customerRetentionRate)
    r.retention_mean ∧
  inRangeOpt (colVals df keyf r.key Row.socialMediaFollowers) r.followers_mean

theorem exists_min_mem :
    ∀ (l : List ℚ), l ≠ [] → ∃ lo ∈ l, ∀ x ∈ l, lo ≤ x := by
  intro l
  induction l with
  | nil => intro h; exact absurd rfl h
  | cons a t ih =>
    intro _
    rcases eq_or_ne t [] with rfl | ht
    · exact ⟨a, List.mem_cons_self a [], by simp⟩
    · rcases ih ht with ⟨lo, hmem, hbd⟩
      rcases le_total a lo with hal | hla
      · refine ⟨a, List.mem_cons_self a t, ?_⟩
        intro x hx
        rcases List.mem_cons.mp hx with rfl | hx
        · exact le_refl x
        · exact le_trans hal (hbd x hx)
      · refine ⟨lo, List.mem_cons_of_mem a hmem, ?_⟩
        intro x hx
        rcases List.mem_cons.mp hx with rfl | hx
        · exact hla
        · exact hbd x hx

theorem exists_max_mem :
    ∀ (l : List ℚ), l ≠ [] → ∃ hi ∈ l, ∀ x ∈ l, x ≤ hi := by
  intro l
  induction l with
  | nil => intro h; exact absurd rfl h
  | cons a t ih =>
    intro _
    rcases eq_or_ne t [] with rfl | ht
    · exact ⟨a, List.mem_cons_self a [], by simp⟩
    · rcases ih ht with ⟨hi, hmem, hbd⟩
      rcases le_total a hi with hah | hha
      · refine ⟨hi, List.mem_cons_of_mem a hmem, ?_⟩
        intro x hx
        rcases List.mem_cons.mp hx with rfl | hx
        · exact hah
        · exact hbd x hx
      · refine ⟨a, List.mem_cons_self a t, ?_⟩
        intro x hx
        rcases List.mem_cons.mp hx with rfl | hx
        · exact le_refl x
        · exact le_trans (hbd x hx) hha

theorem qmean_le {l : List ℚ} (hne : l ≠ []) {hi : ℚ}
    (h : ∀ x ∈ l, x ≤ hi) : qmean l ≤ hi := by
  have hlen : 0 < (l.length : ℚ) := by
    exact_mod_cast List.length_pos.mpr hne
  have hsum : l.sum ≤ l.length • hi := List.sum_le_card_nsmul l hi h
  rw [nsmul_eq_mul] at hsum
  unfold qmean
  rw [div_le_iff₀ hlen]
  linarith

theorem le_qmean {l : List ℚ} (hne : l ≠ []) {lo : ℚ}
    (h : ∀ x ∈ l, lo ≤ x) : lo ≤ qmean l := by
  have hlen : 0 < (l.length : ℚ) := by
    exact_mod_cast List.length_pos.mpr hne
  have hsum : l.length • lo ≤ l.sum := List.card_nsmul_le_sum l lo h
  rw [nsmul_eq_mul] at hsum
  unfold qmean
  rw [le_div_iff₀ hlen]
  linarith

theorem pmean_inRangeOpt (xs : List (Option ℚ)) :
    inRangeOpt xs.reduceOption (pmean xs) := by
  unfold pmean
  cases hv : xs.reduceOption with
  | nil => exact trivial
  | cons a t =>
    have hne : a :: t ≠ [] := List.cons_ne_nil a t
    rcases exists_min_mem (a :: t) hne with ⟨lo, hlom, hlob⟩
    rcases exists_max_mem (a :: t) hne with ⟨hi, hmax, hhib⟩
    exact ⟨lo, hlom, hi, hmax, le_qmean hne hlob, qmean_le hne hhib⟩

theorem groupTable_meansInRange (df : List Row) (keyf : Row → Option String) :
    ∀ r ∈ groupTable df keyf, meansInRange df keyf r := by
  intro r hr
  rcases List.mem_map.mp hr with ⟨k, _, rfl⟩
  exact ⟨pmean_inRangeOpt _, pmean_inRangeOpt _, pmean_inRangeOpt _,
    pmean_inRangeOpt _⟩

theorem audTable_meansInRange (df : List Row) (keyf : Row → Option String) :
    ∀ r ∈ audTable df keyf, audMeansInRange df keyf r := by
  intro r hr
  rcases List.mem_map.mp hr with ⟨k, _, rfl⟩
  exact ⟨pmean_inRangeOpt _, pmean_inRangeOpt _, pmean_inRangeOpt _,
    pmean_inRangeOpt _, pmean_inRangeOpt _⟩

/-- C7 (amended): in every grouped-summary table, every *mean* aggregate of a
row lies within `[min, max]` of the underlying non-missing values of that
column for that category (the *sum* aggregate does not — see
`claim7_counterexample`). -/
theorem claim7_means_within_range (df : List Row) :
    (∀ r ∈ (generate_comprehensive_analysis df).platform_performance,
      meansInRange df Row.platform r) ∧
    (∀ r ∈ (generate_comprehensive_analysis df).campaign_type_performance,
      meansInRange df Row.campaignType r) ∧
    (∀ r ∈ (generate_comprehensive_analysis df).audience_performance,
      audMeansInRange df Row.targetAudience r) :=
  ⟨groupTable_meansInRange df Row.platform,
   groupTable_meansInRange df Row.campaignType,
   audTable_meansInRange df Row.targetAudience⟩

/-- C7 counterexample: on the two-row Facebook table the `platform_performance`
row has budget sum 400, while every underlying budget value for that category
is at most 300 — the sum aggregate does not lie within `[min, max]`. -/
theorem claim7_counterexample :
    ∃ r ∈ (generate_comprehensive_analysis twoRowTable).platform_performance,
      r.budget_sum = some 400 ∧
      ¬∃ hi ∈ colVals twoRowTable Row.platform r.key Row.campaignBudget,
        (400 : ℚ) ≤ hi := by
  refine ⟨fbRow, ?_, rfl, ?_⟩
  · rw [twoRow_platform_eval]
    exact List.mem_singleton.mpr rfl
  · have hcv : colVals twoRowTable Row.platform fbRow.key Row.campaignBudget =
        [100, 300] := by
      norm_num [colVals, groupRows, twoRowTable, emptyRow, fbRow,
        List.reduceOption, List.filterMap_cons]
    rintro ⟨hi, hmem, hle⟩
    rw [hcv] at hmem
    rcases List.mem_cons.mp hmem with rfl | h2
    · norm_num at hle
    · rcases List.mem_singleton.mp h2 with rfl
      norm_num at hle

/-- C7 witness: the amended theorem applied to the concrete two-row table
and its "Facebook" row. -/
theorem claim7_witness :
    fbRow ∈ (generate_comprehensive_analysis twoRowTable).platform_performance
      ∧ meansInRange twoRowTable Row.platform fbRow :=
  ⟨by rw [twoRow_platform_eval]; exact List.mem_singleton.mpr rfl,
   (claim7_means_within_range twoRowTable).1 fbRow
     (by rw [twoRow_platform_eval]; exact List.mem_singleton.mpr rfl)⟩

/-! ### Missing cells are excluded from every aggregate (C4) -/

theorem reduceOption_skip (pre suf : List (Option ℚ)) :
    (pre ++ none :: suf).reduceOption = (pre ++ suf).reduceOption := by
  simp [List.reduceOption, List.filterMap_append, List.filterMap_cons]

theorem pmean_skip (pre suf : List (Option ℚ)) :
    pmean (pre ++ none :: suf) = pmean (pre ++ suf) := by
  unfold pmean
  rw [reduceOption_skip]

theorem psum_skip (pre suf : List (Option ℚ)) :
    psum (pre ++ none :: suf) = psum (pre ++ suf) := by
  unfold psum
  rw [reduceOption_skip]

theorem pairSel_none_left (b : Option ℚ) : pairSel (none, b) = none := by
  cases b <;> rfl

theorem pairSel_none_right (a : Option ℚ) : pairSel (a, none) = none := by
  cases a <;> rfl

theorem corrPairs_skip {xs1 ys1 : List (Option ℚ)}
    (xs2 ys2 : List (Option ℚ)) {a b : Option ℚ}
    (hlen : xs1.length = ys1.length) (hnone : a = none ∨ b = none) :
    corrPairs (xs1 ++ a :: xs2) (ys1 ++ b :: ys2) =
      corrPairs (xs1 ++ xs2) (ys1 ++ ys2) := by
  unfold corrPairs
  rw [List.zip_append hlen, List.zip_append hlen, List.zip_cons_cons,
    List.filterMap_append, List.filterMap_append, List.filterMap_cons]
  have hsel : pairSel (a, b) = none := by
    rcases hnone with rfl | rfl
    · exact pairSel_none_left b
    · exact pairSel_none_right a
  rw [hsel]

theorem corrEntry_skip {xs1 ys1 : List (Option ℚ)}
    (xs2 ys2 : List (Option ℚ)) {a b : Option ℚ}
    (hlen : xs1.length = ys1.length) (hnone : a = none ∨ b = none) :
    corrEntry (xs1 ++ a :: xs2) (ys1 ++ b :: ys2) =
      corrEntry (xs1 ++ xs2) (ys1 ++ ys2) := by
  unfold corrEntry
  rw [corrPairs_skip xs2 ys2 hlen hnone]

/-- C4: the numeric coercion is total — an unparseable cell becomes the
missing marker instead of raising — and a missing cell is excluded from the
mean, the sum and the pairwise correlation computation (dropping the row in
which it occurs from the pair lists of its column). -/
theorem claim4_coercion_total_missing_excluded :
    (∀ s : String, parseRat s = none → toNumeric (CellVal.vStr s) = none) ∧
    (∀ pre suf : List (Option ℚ),
      pmean (pre ++ none :: suf) = pmean (pre ++ suf)) ∧
    (∀ pre suf : List (Option ℚ),
      psum (pre ++ none :: suf) = psum (pre ++ suf)) ∧
    (∀ (xs1 xs2 ys1 ys2 : List (Option ℚ)) (a b : Option ℚ),
      xs1.length = ys1.length → a = none ∨ b = none →
      corrEntry (xs1 ++ a :: xs2) (ys1 ++ b :: ys2) =
        corrEntry (xs1 ++ xs2) (ys1 ++ ys2)) :=
  ⟨fun _ h => h, pmean_skip, psum_skip,
   fun _ xs2 _ ys2 _ _ hlen hnone => corrEntry_skip xs2 ys2 hlen hnone⟩

/-- C4 witness: the coercion and exclusion facts at concrete inputs
(`"N/A"` is unparseable; a missing cell in the middle of a column changes no
aggregate). -/
theorem claim4_witness :
    parseRat "N/A" = none ∧
    toNumeric (CellVal.vStr "N/A") = none ∧
    pmean ([some 1] ++ none :: [some 3]) = pmean ([some 1] ++ [some 3]) ∧
    psum ([some 1] ++ none :: [some 3]) = psum ([some 1] ++ [some 3]) ∧
    corrEntry ([some 1] ++ none :: [some 2]) ([some 4] ++ some 5 :: [some 6])
      = corrEntry ([some 1] ++ [some 2]) ([some 4] ++ [some 6]) := by
  have hna : parseRat "N/A" = none := by decide
  exact ⟨hna, claim4_coercion_total_missing_excluded.1 "N/A" hna,
    claim4_coercion_total_missing_excluded.2.1 [some 1] [some 3],
    claim4_coercion_total_missing_excluded.2.2.1 [some 1] [some 3],
    claim4_coercion_total_missing_excluded.2.2.2 [some 1] [some 2] [some 4]
      [some 6] none (some 5) rfl (Or.inl rfl)⟩

/-! ### The missing-file branch of `main` (C8) -/

theorem strAppend_assoc (a b c : String) : a ++ b ++ c = a ++ (b ++ c) := by
  apply String.ext
  simp [String.data_append]

/-- C8: when the input path does not resolve to a readable file, `main`
prints a message naming that path and exits without writing any output
file. -/
theorem claim8_missing_file (fs : String → Option (List RawRow))
    (filepath : String) (h : fs filepath = none) :
    (∃ s, Event.printLine s ∈ main fs filepath ∧
      ∃ pre suf, s = pre ++ filepath ++ suf) ∧
    ∀ n, Event.writeFile n ∉ main fs filepath := by
  constructor
  · refine ⟨fileNotFoundMsg filepath, ?_, "Error: File " ++
      String.singleton quoteChar, String.singleton quoteChar ++
      " not found. Please ensure the file is in the correct directory.", ?_⟩
    · simp [main, h]
    · unfold fileNotFoundMsg
      rw [strAppend_assoc ("Error: File " ++ String.singleton quoteChar ++
        filepath) (String.singleton quoteChar)]
  · intro n
    simp [main, h]

/-- C8 witness: a filesystem with no readable file at all, probed at the
default path. -/
theorem claim8_witness :
    ((fun _ => none : String → Option (List RawRow)) "marketing_data.csv"
      = none) ∧
    ((∃ s, Event.printLine s ∈ main (fun _ => none) "marketing_data.csv" ∧
      ∃ pre suf, s = pre ++ "marketing_data.csv" ++ suf) ∧
    ∀ n, Event.writeFile n ∉ main (fun _ => none) "marketing_data.csv") :=
  ⟨rfl, claim8_missing_file (fun _ => none) "marketing_data.csv" rfl⟩

/-! ### Idempotence of the numeric coercion (C9) -/

/-- C9: re-coercing an already numeric column changes nothing, and coercing
twice equals coercing once on any column. -/
theorem claim9_coercion_idempotent :
    (∀ col : List CellVal, (∀ c ∈ col, ∃ q, c = CellVal.vNum q) →
      col.map coerceCell = col) ∧
    (∀ col : List CellVal,
      (col.map coerceCell).map coerceCell = col.map coerceCell) := by
  constructor
  · intro col h
    induction col with
    | nil => rfl
    | cons c t ih =>
      have ht : t.map coerceCell = t :=
        ih fun x hx => h x (List.mem_cons_of_mem c hx)
      rcases h c (List.mem_cons_self c t) with ⟨q, rfl⟩
      rw [List.map_cons, ht]
      rfl
  · intro col
    rw [List.map_map]
    exact List.map_congr_left fun c _ => rfl

/-- C9 witness: an already numeric singleton column is unchanged; a textual
column is stable under a second coercion. -/
theorem claim9_witness :
    (∀ c ∈ [CellVal.vNum (some 2)], ∃ q, c = CellVal.vNum q) ∧
    [CellVal.vNum (some 2)].map coerceCell = [CellVal.vNum (some 2)] ∧
    ([CellVal.vStr "N/A"].map coerceCell).map coerceCell =
      [CellVal.vStr "N/A"].map coerceCell := by
  have h : ∀ c ∈ [CellVal.vNum (some 2)], ∃ q, c = CellVal.vNum q := by
    intro c hc
    rcases List.mem_singleton.mp hc with rfl
    exact ⟨some 2, rfl⟩
  exact ⟨h, claim9_coercion_idempotent.1 _ h,
    claim9_coercion_idempotent.2 [CellVal.vStr "N/A"]⟩

/-! ### Total budget versus the per-platform budget sums (C10) -/

theorem sum_map_getD (l : List Row) (f : Row → Option ℚ) :
    (l.map f).reduceOption.sum = (l.map (fun r => (f r).getD 0)).sum := by
  induction l with
  | nil => rfl
  | cons r t ih =>
    cases hf : f r <;>
      simp [List.reduceOption, List.filterMap_cons, hf, ih, List.reduceOption]
        <;> simp [List.reduceOption] at ih <;> linarith

theorem sum_filter_split (l : List Row) (p : Row → Bool) (g : Row → ℚ) :
    ((l.filter p).map g).sum + ((l.filter (fun r => !p r)).map g).sum =
      (l.map g).sum := by
  induction l with
  | nil => simp
  | cons r t ih =>
    cases hp : p r <;> simp [List.filter_cons, hp] <;> linarith

theorem sum_partition (g : Row → ℚ) (keyf : Row → Option String) :
    ∀ (ks : List String) (l : List Row), ks.Nodup →
      (∀ r ∈ l, ∃ p ∈ ks, keyf r = some p) →
      (ks.map (fun k =>
        ((l.filter (fun r => keyf r == some k)).map g).sum)).sum =
      (l.map g).sum := by
  intro ks
  induction ks with
  | nil =>
    intro l _ hcov
    cases l with
    | nil => simp
    | cons r t =>
      rcases hcov r (List.mem_cons_self r t) with ⟨p, hp, _⟩
      exact absurd hp (List.not_mem_nil p)
  | cons k ks ih =>
    intro l hnd hcov
    rcases List.nodup_cons.mp hnd with ⟨hk, hnd2⟩
    rw [List.map_cons, List.sum_cons]
    have hmapeq : ks.map (fun x =>
        ((l.filter (fun r => keyf r == some x)).map g).sum) =
        ks.map (fun x =>
          (((l.filter (fun r => !(keyf r == some k))).filter
            (fun r => keyf r == some x)).map g).sum) := by
      refine List.map_congr_left fun x hx => ?_
      have hxk : x ≠ k := fun h => hk (h ▸ hx)
      rw [List.filter_filter]
      refine congrArg List.sum (congrArg (List.map g) ?_)
      refine List.filter_congr fun r _ => ?_
      cases hkr : (keyf r == some x) with
      | false => simp [hkr]
      | true =>
        have hx2 : keyf r = some x := by simpa using hkr
        simp [hkr, hx2, hxk]
    have hcov2 : ∀ r ∈ l.filter (fun r => !(keyf r == some k)),
        ∃ p ∈ ks, keyf r = some p := by
      intro r hr
      have hrl : r ∈ l := (List.mem_filter.mp hr).1
      have hcond : (!(keyf r == some k)) = true := (List.mem_filter.mp hr).2
      rcases hcov r hrl with ⟨p, hp, hkey⟩
      rcases List.mem_cons.mp hp with rfl | hp2
      · rw [hkey] at hcond
        simp at hcond
      · exact ⟨p, hp2, hkey⟩
    rw [hmapeq, ih (l.filter (fun r => !(keyf r == some k))) hnd2 hcov2]
    have hsplit := sum_filter_split l (fun r => keyf r == some k) g
    linarith

/-- C10: when every row has a non-missing Platform, the overall
`total_budget` equals the sum, over the rows of `platform_performance`, of
the row's `Campaign_Budget` sum column. -/
theorem claim10_total_budget_partition (df : List Row)
    (h : ∀ r ∈ df, ∃ p, r.platform = some p) :
    (generate_comprehensive_analysis df).overall_performance.total_budget =
      some (((generate_comprehensive_analysis df).platform_performance).map
        (fun r => r.budget_sum.getD 0)).sum := by
  show psum (df.map Row.campaignBudget) = _
  unfold psum
  congr 1
  have htab : ((generate_comprehensive_analysis df).platform_performance).map
      (fun r => r.budget_sum.getD 0) =
      (groupKeys df Row.platform).map (fun k =>
        (((groupRows df Row.platform k).map
          Row.campaignBudget).reduceOption).sum) := by
    show (groupTable df Row.platform).map _ = _
    unfold groupTable
    rw [List.map_map]
    rfl
  rw [htab]
  have hentries : (groupKeys df Row.platform).map (fun k =>
      (((groupRows df Row.platform k).map
        Row.campaignBudget).reduceOption).sum) =
      (groupKeys df Row.platform).map (fun k =>
        ((df.filter (fun r => r.platform == some k)).map
          (fun r => r.campaignBudget.getD 0)).sum) := by
    refine List.map_congr_left fun k _ => ?_
    rw [sum_map_getD]
    rfl
  rw [sum_map_getD df Row.campaignBudget, hentries]
  have hcov : ∀ r ∈ df, ∃ p ∈ groupKeys df Row.platform,
      r.platform = some p := by
    intro r hr
    rcases h r hr with ⟨p, hp⟩
    exact ⟨p, mem_groupKeys.mpr ⟨r, hr, hp⟩, hp⟩
  exact (sum_partition (fun r => r.campaignBudget.getD 0) Row.platform
    (groupKeys df Row.platform) df (groupKeys_nodup df Row.platform)
    hcov).symm

/-- C10 witness: the two-row Facebook table, where every row has a
platform. -/
theorem claim10_witness :
    (∀ r ∈ twoRowTable, ∃ p, r.platform = some p) ∧
    (generate_comprehensive_analysis
        twoRowTable).overall_performance.total_budget =
      some (((generate_comprehensive_analysis
        twoRowTable).platform_performance).map
          (fun r => r.budget_sum.getD 0)).sum := by
  have h : ∀ r ∈ twoRowTable, ∃ p, r.platform = some p := by
    intro r hr
    rcases List.mem_cons.mp hr with rfl | hr2
    · exact ⟨"Facebook", rfl⟩
    · rcases List.mem_singleton.mp hr2 with rfl
      exact ⟨"Facebook", rfl⟩
  exact ⟨h, claim10_total_budget_partition twoRowTable h⟩

end Marketing
